import Mathlib

/-!
Verification development for the acOS memory kernel
(src/src/ac_collapse.py, src/src/arc_guardian.py, src/src/ac_reconstruct.py,
src/src/arc_prime.py).

Conventions of the shallow embedding:
  * Python dict-shaped memory nodes are modelled by the inductive `Node`
    with one optional field per dict key read or written by the engines
    (`role`, `cycle`, `content`, `seed`, `priority`, `compression_level`,
    `compressed_from`, `error`, `children`).  `Option.none` stands for a
    key that is absent or holds Python `None` (the engines never
    distinguish the two: every read of these keys goes through
    `dict.get`/truthiness).
  * Python string slicing `s[:k]` slices by code points, modelled by
    `pySlice` on the character list of a `String`.
  * Python integers are `Int` (cycle, priority); lengths and depths are
    `Nat` at the call sites the engines use.
-/

/-- `CompressionLevel` from ac_collapse.py (lines 31..35), an IntEnum with
RAW=0, SUMMARY=1, SEED=2, SIGIL_ONLY=3. -/
inductive CompressionLevel where
  | RAW
  | SUMMARY
  | SEED
  | SIGIL_ONLY
deriving DecidableEq, Repr

/-- The IntEnum ordinal value of a compression level. -/
def CompressionLevel.toNat : CompressionLevel → Nat
  | .RAW => 0
  | .SUMMARY => 1
  | .SEED => 2
  | .SIGIL_ONLY => 3

/-- A memory-tree node: the dict shape consumed and produced by
ACCollapseEngine.collapse_state and ArcReconstruct (keys `role`, `cycle`,
`content`, `seed`, `priority`, `compression_level`, `compressed_from`,
`error`, `children`).  `none` = key absent or value `None`. -/
inductive Node where
  | mk (role : Option String) (cycle : Option Int) (content : Option String)
       (seed : Option String) (priority : Option Int)
       (compression_level : Option CompressionLevel)
       (compressed_from : Option CompressionLevel)
       (error : Option String)
       (children : List Node)

def Node.role : Node → Option String
  | .mk r _ _ _ _ _ _ _ _ => r

def Node.cycle : Node → Option Int
  | .mk _ c _ _ _ _ _ _ _ => c

def Node.content : Node → Option String
  | .mk _ _ c _ _ _ _ _ _ => c

def Node.seed : Node → Option String
  | .mk _ _ _ s _ _ _ _ _ => s

def Node.priority : Node → Option Int
  | .mk _ _ _ _ p _ _ _ _ => p

def Node.compression_level : Node → Option CompressionLevel
  | .mk _ _ _ _ _ l _ _ _ => l

def Node.compressed_from : Node → Option CompressionLevel
  | .mk _ _ _ _ _ _ f _ _ => f

def Node.error : Node → Option String
  | .mk _ _ _ _ _ _ _ e _ => e

def Node.children : Node → List Node
  | .mk _ _ _ _ _ _ _ _ ch => ch

/-- Python truthiness of an optional string value (`if seed:`):
true exactly when the value is present and a non-empty string. -/
def truthy : Option String → Bool
  | none => false
  | some s => s != ""

/-- Python slice `s[:k]` (by code points). -/
def pySlice (s : String) (k : Nat) : String := ⟨s.data.take k⟩

/-- The f-string of ac_collapse.py line 134:
`[AutoSeed AC-{cycle}]: {snippet}...`. -/
def autoSeedStr (cycle : Int) (snippet : String) : String :=
  "[AutoSeed AC-" ++ toString cycle ++ "]: " ++ snippet ++ "..."

/-- The contract shape of a structural policy gate,
`gate(role, cycle, child_count, depth) -> (allowed, reason)`
(spec section 4.2; `ArcGuardian.gate_node` has this shape). -/
abbrev GateFn := String → Int → Nat → Nat → Bool × String

/-- `ACCollapseEngine._validate_node` (ac_collapse.py lines 57..78),
for an engine whose guardian either is None or exposes a structural gate
of the contract shape.  Returns `(true, none)` when the guardian is None;
otherwise forwards `role` (default "unknown"; `sys.intern` is the
identity on the value), `cycle` (default 0), `len(children)` and `depth`
to the gate. -/
def validate_node (g : Option GateFn) (n : Node) (depth : Nat) :
    Bool × Option String :=
  match g with
  | none => (true, none)
  | some gf =>
    let res := gf (n.role.getD "unknown") (n.cycle.getD 0) n.children.length depth
    (res.1, some res.2)

mutual
/-- `ACCollapseEngine.collapse_state` (ac_collapse.py lines 84..149),
parametrised by the optional structural gate the guardian exposes.
Steps, in source order: setdefault of `compression_level` (to RAW) and
`compressed_from` (to None); guardian validation; on rejection the
terminal blocked dict of lines 101..109; otherwise the seed branch
(lines 117..122) or the seed-derivation branch (lines 124..137); finally
the recursive collapse of the children (lines 140..147).  The deep copy
of line 91 is implicit: the embedding is pure and the input is never
mutated. -/
def collapseStateG (g : Option GateFn) : Node → Nat → Node
  | n@(.mk r cy co se pr lv cf er ch), depth =>
    -- setdefault("compression_level", RAW): every later read sees level0
    let level0 := lv.getD .RAW
    match validate_node g n depth with
    | (false, reason) =>
        .mk (some (r.getD "unknown")) (some (cy.getD 0)) none
            (some "[Blocked]") none (some .SIGIL_ONLY) (some level0)
            (some ("[Guardian] Collapse blocked: " ++ reason.getD "None")) []
    | (true, _) =>
        if truthy se then
          -- seed exists: discard raw content; explicit RAW → SEED transition
          let newLv := if level0 = .RAW then CompressionLevel.SEED else level0
          let newCf := if level0 = .RAW then some CompressionLevel.RAW else cf
          .mk r cy none se pr (some newLv) newCf er
              (collapseChildrenG g ch (depth + 1))
        else
          -- generate seed from content, snippet length picked by priority
          let raw := co.getD ""
          let snippet := if 3 ≤ pr.getD 0 then pySlice raw 80 else pySlice raw 50
          .mk r cy none (some (autoSeedStr (cy.getD 0) snippet)) pr
              (some .SEED) (some level0) er
              (collapseChildrenG g ch (depth + 1))
termination_by n _ => sizeOf n

/-- The child loop of ac_collapse.py lines 140..147: each child is
collapsed in order at `depth + 1` and the results replace the list. -/
def collapseChildrenG (g : Option GateFn) : List Node → Nat → List Node
  | [], _ => []
  | c :: rest, depth => collapseStateG g c depth :: collapseChildrenG g rest depth
termination_by l _ => sizeOf l
end

/-- `collapse_state` of the default engine, `ACCollapseEngine()` with
`guardian = None` — the wiring `ArcMemorySystem.__init__` uses
(arc_prime.py line 123). -/
def collapse_state (n : Node) (depth : Nat) : Node := collapseStateG none n depth

/-- Python substring membership `needle in hay` on code-point lists. -/
def pyContainsSub (hay needle : List Char) : Bool :=
  match hay with
  | [] => needle == []
  | h :: rest => needle.isPrefixOf (h :: rest) || pyContainsSub rest needle

/-- The blocked substrings of `ArcGuardian.input_gate`
(arc_guardian.py line 118). -/
def blockedInputTerms : List String :=
  ["rm -rf", "shutdown", "system.exit", "drop database"]

/-- `ArcGuardian.input_gate` (arc_guardian.py lines 108..122): rejects
empty input, input longer than 2000 code points, or input containing a
blocked substring (checked on the lower-cased text); accepts otherwise.
The `isinstance` guard is outside the typed model (the argument is
always a string here). -/
def input_gate (text : String) : Bool :=
  if text == "" || 2000 < text.length then false
  else if blockedInputTerms.any (fun b => pyContainsSub text.toLower.data b.data) then false
  else true

/-- `ArcGuardian.gate_node` (arc_guardian.py lines 148..166): the
structural gate.  Checks, in source order: role membership in
`("user", "ai", "system")`, then `depth > 40`, then `child_count > 20`;
returns on the first failing check; there is no check on `cycle` at all
(the parameter is accepted and ignored).  `sys.intern(role)` is the
identity on the value. -/
def gate_node (role : String) (cycle : Int) (child_count : Nat) (depth : Nat) :
    Bool × String :=
  if ¬(role = "user" ∨ role = "ai" ∨ role = "system") then (false, "Invalid role.")
  else if 40 < depth then (false, "Depth too deep — recursion risk.")
  else if 20 < child_count then (false, "Too many children — structural overload.")
  else (true, "OK")

/-- A Python runtime error raised by a dynamic call. -/
inductive PyError where
  | typeError
deriving DecidableEq, Repr

/-- The possible shapes of a `gate` attribute on a guardian object:
either the one-parameter text gate `input_gate(text)` or a structural
gate with the four-parameter contract shape. -/
inductive GateAttr where
  | textGate (f : String → Bool)
  | structGate (f : GateFn)

/-- The Python call `guardian.gate(role=…, cycle=…, child_count=…,
depth=…)` performed by `ACCollapseEngine._validate_node`
(ac_collapse.py lines 71..76).  Keyword arguments are bound by
parameter name; when the `gate` attribute is the one-parameter text
gate, none of the four keywords binds its parameter `text`, so the
call raises `TypeError` before the gate body runs.  When the attribute
is a structural gate, all four keywords bind and the `(ok, reason)`
pair is returned. -/
def callGateKw (g : GateAttr) (role : String) (cycle : Int)
    (child_count : Nat) (depth : Nat) : Except PyError (Bool × Option String) :=
  match g with
  | .textGate _ => .error .typeError
  | .structGate f =>
    let res := f role cycle child_count depth
    .ok (res.1, some res.2)

/-- The `gate` attribute of `ArcGuardian`: arc_guardian.py line 125
assigns `gate = input_gate` (the backward-compatible alias), so the
attribute is the one-parameter text gate, not the structural gate
`gate_node`. -/
def arcGuardianGate : GateAttr := .textGate input_gate

/-- `ACCollapseEngine._validate_node` (ac_collapse.py lines 57..78)
under Python call semantics: `(true, none)` when the guardian is None,
otherwise the keyword call to the guardian `gate` attribute, which can
raise. -/
def validate_nodeE (g : Option GateAttr) (n : Node) (depth : Nat) :
    Except PyError (Bool × Option String) :=
  match g with
  | none => .ok (true, none)
  | some ga =>
    callGateKw ga (n.role.getD "unknown") (n.cycle.getD 0) n.children.length depth

mutual
/-- `ACCollapseEngine.collapse_state` (ac_collapse.py lines 84..149)
under Python call semantics for the guardian gate: identical to
`collapseStateG` except that the validation step may raise, and a
raised error propagates out of the whole call (nothing in
`collapse_state` catches it). -/
def collapseStateE (g : Option GateAttr) : Node → Nat → Except PyError Node
  | n@(.mk r cy co se pr lv cf er ch), depth =>
    let level0 := lv.getD .RAW
    match validate_nodeE g n depth with
    | .error e => .error e
    | .ok (false, reason) =>
        .ok (.mk (some (r.getD "unknown")) (some (cy.getD 0)) none
              (some "[Blocked]") none (some .SIGIL_ONLY) (some level0)
              (some ("[Guardian] Collapse blocked: " ++ reason.getD "None")) [])
    | .ok (true, _) =>
        if truthy se then
          let newLv := if level0 = .RAW then CompressionLevel.SEED else level0
          let newCf := if level0 = .RAW then some CompressionLevel.RAW else cf
          match collapseChildrenE g ch (depth + 1) with
          | .error e => .error e
          | .ok newCh => .ok (.mk r cy none se pr (some newLv) newCf er newCh)
        else
          let raw := co.getD ""
          let snippet := if 3 ≤ pr.getD 0 then pySlice raw 80 else pySlice raw 50
          match collapseChildrenE g ch (depth + 1) with
          | .error e => .error e
          | .ok newCh =>
              .ok (.mk r cy none (some (autoSeedStr (cy.getD 0) snippet)) pr
                    (some .SEED) (some level0) er newCh)
termination_by n _ => sizeOf n

/-- The child loop of ac_collapse.py lines 140..147 under Python call
semantics: children are collapsed in order; the first raised error
propagates. -/
def collapseChildrenE (g : Option GateAttr) : List Node → Nat → Except PyError (List Node)
  | [], _ => .ok []
  | c :: rest, depth =>
    match collapseStateE g c depth with
    | .error e => .error e
    | .ok c2 =>
      match collapseChildrenE g rest depth with
      | .error e => .error e
      | .ok rest2 => .ok (c2 :: rest2)
termination_by l _ => sizeOf l
end

/-- `ArcReconstruct.expand_seed` (ac_reconstruct.py lines 36..43):
falsy seed (None or empty) yields the fixed placeholder, otherwise
every occurrence of `[AutoSeed` is rewritten to `[Seed`. -/
def expand_seed (seed : Option String) : String :=
  if truthy seed then (seed.getD "").replace "[AutoSeed" "[Seed"
  else "[No seed available]"

/-- The indentation `"  " * depth` used by ArcReconstruct. -/
def indentStr (depth : Nat) : String := String.join (List.replicate depth "  ")

/-- The line shape `f"{indent}[AC-{cycle}] {role}: {body}"` shared by
the ArcReconstruct renderers (ac_reconstruct.py lines 61, 91, 99). -/
def nodeLine (depth : Nat) (cycle : Int) (roleUpper : String) (body : String) : String :=
  indentStr depth ++ "[AC-" ++ toString cycle ++ "] " ++ roleUpper ++ ": " ++ body

mutual
/-- `ArcReconstruct.reconstruct_path` (ac_reconstruct.py lines 49..66):
one line for the node (seed if truthy, else content with default
`[No content]`), then the dispatched reconstruction of every child at
`depth + 1`. -/
def reconstruct_path : Node → Nat → List String
  | .mk r cy co se _ _ _ _ ch, depth =>
    let body := if truthy se then se.getD "" else co.getD "[No content]"
    nodeLine depth (cy.getD 0) (r.getD "").toUpper body
      :: reconstructChildren ch (depth + 1)
termination_by n _ => (sizeOf n, 0)

/-- The `lines.extend(self.reconstruct_node(child, depth + 1))` loop of
ac_reconstruct.py lines 63..64. -/
def reconstructChildren : List Node → Nat → List String
  | [], _ => []
  | c :: rest, depth => reconstruct_node c depth ++ reconstructChildren rest depth
termination_by l _ => (sizeOf l, 1)

/-- `ArcReconstruct.reconstruct_node` (ac_reconstruct.py lines 72..103):
dispatch on `compression_level` (default RAW).  RAW and SUMMARY go
through `reconstruct_path`; SEED returns exactly one line built from
`expand_seed`, without touching the children; SIGIL_ONLY returns the
fixed anchor line.  (The defensive fallback for a non-enum stored level
is unreachable in the typed model.) -/
def reconstruct_node : Node → Nat → List String
  | .mk r cy co se pr lv cf er ch, depth =>
    match lv.getD .RAW with
    | .RAW | .SUMMARY => reconstruct_path (.mk r cy co se pr lv cf er ch) depth
    | .SEED => [nodeLine depth (cy.getD 0) (r.getD "").toUpper (expand_seed se)]
    | .SIGIL_ONLY =>
        [nodeLine depth (cy.getD 0) (r.getD "").toUpper
          "[Sigil Anchor — reconstruction required]"]
termination_by n _ => (sizeOf n, 1)
end

/-- `ArcReconstruct.reconstruct_full` (ac_reconstruct.py lines 109..115). -/
def reconstruct_full (tree : Node) : String :=
  String.intercalate "\n" (reconstruct_node tree 0)

mutual
/-- The pre-order node list of a tree (used to state the traversal
order of the cycle-threaded reconstruction). -/
def preorder : Node → List Node
  | n@(.mk _ _ _ _ _ _ _ _ ch) => n :: preorderList ch
termination_by n => sizeOf n

/-- Pre-order node list of a forest, in order. -/
def preorderList : List Node → List Node
  | [] => []
  | c :: rest => preorder c ++ preorderList rest
termination_by l => sizeOf l
end

mutual
/-- Modelled from the spec: the entry point `reconstructThread(tree,
cycleId)` is absent from src (tests/test_reconstruct.py calls
`cmd_reconstruct_thread`, but neither it nor a thread method of
`ArcReconstruct` exists in any source file).  Spec section 4.4: a
filtered depth-first walk that visits every node regardless of its own
cycle but only emits an expanded-seed line for nodes whose
`cycleAlignment` equals the requested target cycle; the traversal is
not pruned by cycle. -/
def reconstruct_thread : Node → Int → List String
  | .mk _ cy _ se _ _ _ _ ch, cycleId =>
    (if cy.getD 0 = cycleId then [expand_seed se] else [])
      ++ reconstructThreadChildren ch cycleId
termination_by n _ => sizeOf n

/-- Modelled from the spec: the child walk of the cycle-threaded
reconstruction, visiting every child in order. -/
def reconstructThreadChildren : List Node → Int → List String
  | [], _ => []
  | c :: rest, cycleId =>
    reconstruct_thread c cycleId ++ reconstructThreadChildren rest cycleId
termination_by l _ => sizeOf l
end

/-- Spec property (mutual exclusion), per node: a stored level other
than RAW (absent counts as RAW) implies the `content` value is absent
or the empty string. -/
def mutualExclusionB : Node → Bool
  | .mk _ _ co _ _ lv _ _ _ =>
    (lv.getD .RAW == .RAW) || co == none || co == some ""

mutual
/-- `mutualExclusionB` holding at every node of a tree. -/
def mutualExclusionTreeB : Node → Bool
  | n@(.mk _ _ _ _ _ _ _ _ ch) => mutualExclusionB n && mutualExclusionListB ch
termination_by n => sizeOf n

/-- `mutualExclusionB` holding at every node of a forest. -/
def mutualExclusionListB : List Node → Bool
  | [] => true
  | c :: rest => mutualExclusionTreeB c && mutualExclusionListB rest
termination_by l => sizeOf l
end

mutual
/-- Every node of the tree that is stored at level SIGIL_ONLY carries a
truthy seed.  (The one tree shape on which the collapse level can step
backwards is a seedless SIGIL_ONLY node.) -/
def seededSigilTreeB : Node → Bool
  | .mk _ _ _ se _ lv _ _ ch =>
    (!(lv.getD .RAW == .SIGIL_ONLY) || truthy se) && seededSigilListB ch
termination_by n => sizeOf n

/-- `seededSigilTreeB` over a forest. -/
def seededSigilListB : List Node → Bool
  | [] => true
  | c :: rest => seededSigilTreeB c && seededSigilListB rest
termination_by l => sizeOf l
end

mutual
/-- Ordinal monotonicity of the stored compression level between an
input tree and a result tree, compared node-by-node along the common
child positions (a result node with fewer children than the input
constrains only the common ones). -/
def levelMonotoneB : Node → Node → Bool
  | .mk _ _ _ _ _ lv _ _ ch, out =>
    decide ((lv.getD .RAW).toNat ≤ (out.compression_level.getD .RAW).toNat)
      && levelMonotoneListB ch out.children
termination_by n _ => sizeOf n

/-- `levelMonotoneB` over paired child positions. -/
def levelMonotoneListB : List Node → List Node → Bool
  | [], _ => true
  | _ :: _, [] => true
  | a :: as, b :: bs => levelMonotoneB a b && levelMonotoneListB as bs
termination_by l _ => sizeOf l
end

mutual
/-- The result tree has, at every node position, the same `error`
value and the same number of children as the input tree — the shape
the non-blocked branch of `collapse_state` always produces, and the
blocked branch in general does not (it overwrites `error` and
amputates the children). -/
def shapePreservedB : Node → Node → Bool
  | .mk _ _ _ _ _ _ _ er ch, out =>
    (out.error == er) && (out.children.length == ch.length)
      && shapePreservedListB ch out.children
termination_by n _ => sizeOf n

/-- `shapePreservedB` over paired child positions. -/
def shapePreservedListB : List Node → List Node → Bool
  | [], _ => true
  | _ :: _, [] => true
  | a :: as, b :: bs => shapePreservedB a b && shapePreservedListB as bs
termination_by l _ => sizeOf l
end

/-- Structural induction over `Node` with the membership form of the
child hypothesis. -/
def Node.inductionOn {motive : Node → Prop}
    (step : ∀ r cy co se pr lv cf er ch,
      (∀ c ∈ ch, motive c) → motive (.mk r cy co se pr lv cf er ch)) :
    ∀ n, motive n
  | .mk r cy co se pr lv cf er ch =>
    step r cy co se pr lv cf er ch (fun c hc =>
      have : sizeOf c < sizeOf (Node.mk r cy co se pr lv cf er ch) := by
        have h1 := List.sizeOf_lt_of_mem hc
        have h2 : sizeOf ch < sizeOf (Node.mk r cy co se pr lv cf er ch) := by
          simp only [Node.mk.sizeOf_spec]
          omega
        omega
      Node.inductionOn step c)
termination_by n => sizeOf n

/-- A gate that rejects everything, for the C4 witness. -/
def rejectGate : GateFn := fun _ _ _ _ => (false, "nope")

/-- A node with two children, a prior level and no seed, for the C4
witness. -/
def exC4 : Node :=
  .mk (some "user") (some 5) (some "text") none none (some .SUMMARY) none none
    [.mk none none none none none none none none [],
     .mk none none none none none none none none []]

/-- A seedless node whose content is 100 code points long, priority 3,
for the C8 witness. -/
def exC8 : Node :=
  .mk (some "user") (some 4) (some (String.mk (List.replicate 100 'x')))
    none (some 3) none none none []

/-- An already-seeded SEED node for the C9 witness. -/
def exC9 : Node :=
  .mk (some "ai") (some 2) none (some "[AutoSeed AC-2]: kept...") none
    (some .SEED) (some .RAW) none []

/-- C3 counterexample: a node stored at SIGIL_ONLY with no seed is
re-seeded by collapse at level SEED — an ordinal decrease from 3 to 2
in a single collapse call. -/
def exC3 : Node :=
  .mk (some "user") (some 1) (some "txt") none none (some .SIGIL_ONLY) none none []

/-- A SUMMARY node with content and no seed, satisfying the seeded-
sigil condition, for the C3 witness. -/
def exC3w : Node :=
  .mk (some "user") (some 1) (some "txt") none none (some .SUMMARY) none none
    [.mk (some "ai") (some 1) (some "reply") none none none none none []]

/-- A SEED child node for the C5 example tree. -/
def exC5child : Node :=
  .mk (some "ai") (some 3) none (some "[AutoSeed AC-3]: c...") none (some .SEED)
    none none []

/-- A SEED node with one SEED child, for the C5 counterexample and
witness. -/
def exC5 : Node :=
  .mk (some "user") (some 3) none (some "[AutoSeed AC-3]: p...") none (some .SEED)
    none none [exC5child]

/-- Leaf of the C6 example tree: cycle 3, nested under a cycle-7 node. -/
def exC6leaf : Node :=
  .mk (some "user") (some 3) none (some "[AutoSeed AC-3]: deep...") none
    (some .SEED) none none []

/-- Middle node of the C6 example tree: cycle 7, with a cycle-3 child. -/
def exC6mid : Node :=
  .mk (some "ai") (some 7) none (some "[AutoSeed AC-7]: mid...") none
    (some .SEED) none none [exC6leaf]

/-- Root of the C6 example tree: cycle 3; the tree carries cycles
{3, 7, 3} with the second 3 nested under the 7. -/
def exC6 : Node :=
  .mk (some "user") (some 3) none (some "[AutoSeed AC-3]: root...") none
    (some .SEED) none none [exC6mid]

/-- The child loop of the collapse engine is the per-child map. -/
theorem collapseChildrenG_eq_map (g : Option GateFn) (l : List Node) (d : Nat) :
    collapseChildrenG g l d = l.map (fun c => collapseStateG g c d) := by
  induction l with
  | nil => simp [collapseChildrenG]
  | cons c rest ih => simp [collapseChildrenG, ih]

theorem mutualExclusionListB_eq (l : List Node) :
    mutualExclusionListB l = l.all mutualExclusionTreeB := by
  induction l with
  | nil => simp [mutualExclusionListB]
  | cons c rest ih => simp [mutualExclusionListB, ih]

theorem seededSigilListB_eq (l : List Node) :
    seededSigilListB l = l.all seededSigilTreeB := by
  induction l with
  | nil => simp [seededSigilListB]
  | cons c rest ih => simp [seededSigilListB, ih]

theorem levelMonotoneListB_nil (l : List Node) :
    levelMonotoneListB l [] = true := by
  cases l <;> simp [levelMonotoneListB]

theorem levelMonotoneListB_map (l : List Node) (f : Node → Node)
    (h : ∀ c ∈ l, levelMonotoneB c (f c) = true) :
    levelMonotoneListB l (l.map f) = true := by
  induction l with
  | nil => simp [levelMonotoneListB]
  | cons c rest ih =>
    simp only [List.map_cons, levelMonotoneListB, Bool.and_eq_true]
    exact ⟨h c (by simp), ih (fun x hx => h x (by simp [hx]))⟩

theorem shapePreservedListB_map (l : List Node) (f : Node → Node)
    (h : ∀ c ∈ l, shapePreservedB c (f c) = true) :
    shapePreservedListB l (l.map f) = true := by
  induction l with
  | nil => simp [shapePreservedListB]
  | cons c rest ih =>
    simp only [List.map_cons, shapePreservedListB, Bool.and_eq_true]
    exact ⟨h c (by simp), ih (fun x hx => h x (by simp [hx]))⟩

theorem levelToNat_le_three (l : CompressionLevel) : l.toNat ≤ 3 := by
  cases l <;> simp [CompressionLevel.toNat]

/-- C1: for every input node and depth, collapsing with the engine
bound to the ArcGuardian raises TypeError at the validation step — the
`gate` attribute of ArcGuardian is the one-parameter `input_gate`
alias, so the keyword call of `_validate_node` matches no parameter.
The structured `(false, reason)` path the claim describes is never
taken; the error propagates out of `collapse_state`. -/
theorem collapse_with_arc_guardian_always_raises (n : Node) (d : Nat) :
    collapseStateE (some arcGuardianGate) n d = .error .typeError := by
  cases n with
  | mk r cy co se pr lv cf er ch =>
    simp [collapseStateE, validate_nodeE, callGateKw, arcGuardianGate]

/-- C2 counterexample: the structural gate accepts every cycle value
(there is no cycle-range check at all), and the check after role
membership is the depth ceiling, not a cycle range — at
`(role = "user", cycle = 0, child_count = 25, depth = 50)` the reason
names the depth check even though the child-count ceiling is also
exceeded. -/
theorem gate_node_ignores_cycle_cex :
    gate_node "user" 1000000000 0 0 = (true, "OK")
    ∧ gate_node "user" (-1000000000) 0 0 = (true, "OK")
    ∧ gate_node "user" 0 25 50 = (false, "Depth too deep — recursion risk.") := by
  decide

/-- C2 (amended): the structural gate evaluates three checks in the
fixed order role membership, depth ceiling (depth > 40), child-count
ceiling (child_count > 20); it returns on the first failing check with
a reason identifying that check, returns allowed = true (reason "OK")
exactly when all three pass, and ignores the cycle argument entirely —
no cycle value is ever rejected. -/
theorem gate_node_three_ordered_checks (role : String) (cycle cycle2 : Int)
    (cc depth : Nat) :
    gate_node role cycle cc depth = gate_node role cycle2 cc depth
    ∧ ((gate_node role cycle cc depth).1 = true ↔
        ((role = "user" ∨ role = "ai" ∨ role = "system") ∧ depth ≤ 40 ∧ cc ≤ 20))
    ∧ (¬(role = "user" ∨ role = "ai" ∨ role = "system") →
        gate_node role cycle cc depth = (false, "Invalid role."))
    ∧ ((role = "user" ∨ role = "ai" ∨ role = "system") → 40 < depth →
        gate_node role cycle cc depth = (false, "Depth too deep — recursion risk."))
    ∧ ((role = "user" ∨ role = "ai" ∨ role = "system") → depth ≤ 40 → 20 < cc →
        gate_node role cycle cc depth
          = (false, "Too many children — structural overload."))
    ∧ ((role = "user" ∨ role = "ai" ∨ role = "system") → depth ≤ 40 → cc ≤ 20 →
        gate_node role cycle cc depth = (true, "OK")) := by
  refine ⟨rfl, ?_, ?_, ?_, ?_, ?_⟩
  · unfold gate_node
    split_ifs with h1 h2 h3 <;> simp_all
  · intro h1
    simp [gate_node, h1]
  · intro h1 h2
    simp [gate_node, h1, h2]
  · intro h1 h2 h3
    simp [gate_node, h1, h3, show ¬40 < depth by omega]
  · intro h1 h2 h3
    simp [gate_node, h1, show ¬40 < depth by omega, show ¬20 < cc by omega]

/-- C4: whenever the structural gate rejects a node, the collapse
result for that node is the terminal blocked node: role and cycle
preserved (with the engine defaults for absent keys), content and
priority dropped, seed the fixed sentinel, level SIGIL_ONLY, the prior
level recorded in compressed_from, the error message embedding the
rejection reason, and zero children whatever the input fan-out. -/
theorem collapse_blocked_node_shape (gf : GateFn) (n : Node) (d : Nat)
    (h : (gf (n.role.getD "unknown") (n.cycle.getD 0) n.children.length d).1 = false) :
    collapseStateG (some gf) n d
      = .mk (some (n.role.getD "unknown")) (some (n.cycle.getD 0)) none
          (some "[Blocked]") none (some .SIGIL_ONLY)
          (some (n.compression_level.getD .RAW))
          (some ("[Guardian] Collapse blocked: "
            ++ (gf (n.role.getD "unknown") (n.cycle.getD 0) n.children.length d).2))
          [] := by
  cases n with
  | mk r cy co se pr lv cf er ch =>
    simp only [Node.role, Node.cycle, Node.children, Node.compression_level] at h ⊢
    simp [collapseStateG, validate_node, Node.role, Node.cycle, Node.children, h]

/-- C4 witness: the blocked-node theorem applied at a concrete
rejecting gate and a concrete two-child node. -/
theorem collapse_blocked_node_shape_witness :
    collapseStateG (some rejectGate) exC4 0
      = .mk (some (exC4.role.getD "unknown")) (some (exC4.cycle.getD 0)) none
          (some "[Blocked]") none (some .SIGIL_ONLY)
          (some (exC4.compression_level.getD .RAW))
          (some ("[Guardian] Collapse blocked: "
            ++ (rejectGate (exC4.role.getD "unknown") (exC4.cycle.getD 0)
                  exC4.children.length 0).2))
          [] :=
  collapse_blocked_node_shape rejectGate exC4 0 rfl

/-- C8: when the engine derives a seed for a node with no truthy seed
and raw content of length at least 80, the retained snippet is the
front-anchored code-point slice of the content whose length is exactly
80 for priority >= 3 and exactly 50 for priority 0, placed inside the
formatted AutoSeed string before the ellipsis. -/
theorem collapse_snippet_lengths (n : Node) (d : Nat)
    (hs : truthy n.seed = false) (hl : 80 ≤ (n.content.getD "").length) :
    (3 ≤ n.priority.getD 0 →
        (collapse_state n d).seed
          = some (autoSeedStr (n.cycle.getD 0) (pySlice (n.content.getD "") 80))
        ∧ (pySlice (n.content.getD "") 80).length = 80)
    ∧ (n.priority.getD 0 = 0 →
        (collapse_state n d).seed
          = some (autoSeedStr (n.cycle.getD 0) (pySlice (n.content.getD "") 50))
        ∧ (pySlice (n.content.getD "") 50).length = 50) := by
  cases n with
  | mk r cy co se pr lv cf er ch =>
    simp only [Node.seed, Node.content, Node.priority, Node.cycle] at hs hl ⊢
    have hlen : ∀ k : Nat, k ≤ 80 → (pySlice (co.getD "") k).length = k := by
      intro k hk
      simp only [pySlice, String.length]
      have : (co.getD "").length = (co.getD "").data.length := rfl
      rw [List.length_take]
      omega
    constructor
    · intro hp
      refine ⟨?_, hlen 80 (by omega)⟩
      simp [collapse_state, collapseStateG, validate_node, hs, hp, Node.seed]
    · intro hp
      refine ⟨?_, hlen 50 (by omega)⟩
      have hp3 : ¬(3 ≤ pr.getD 0) := by omega
      simp [collapse_state, collapseStateG, validate_node, hs, hp3, Node.seed]

/-- C8 witness: the snippet-length theorem applied at a concrete
100-character node of priority 3. -/
theorem collapse_snippet_lengths_witness :
    (3 ≤ exC8.priority.getD 0 →
        (collapse_state exC8 0).seed
          = some (autoSeedStr (exC8.cycle.getD 0) (pySlice (exC8.content.getD "") 80))
        ∧ (pySlice (exC8.content.getD "") 80).length = 80)
    ∧ (exC8.priority.getD 0 = 0 →
        (collapse_state exC8 0).seed
          = some (autoSeedStr (exC8.cycle.getD 0) (pySlice (exC8.content.getD "") 50))
        ∧ (pySlice (exC8.content.getD "") 50).length = 50) :=
  collapse_snippet_lengths exC8 0 rfl (by decide)

/-- C9: collapse is idempotent on an already-seeded node at level
SEED — one call leaves the seed and the level untouched, and a second
call applied to the result still returns the original seed. -/
theorem collapse_idempotent_on_seeded (n : Node) (d : Nat)
    (hs : truthy n.seed = true) (hl : n.compression_level = some .SEED) :
    (collapse_state n d).seed = n.seed
    ∧ (collapse_state n d).compression_level = some .SEED
    ∧ (collapse_state (collapse_state n d) d).seed = n.seed := by
  cases n with
  | mk r cy co se pr lv cf er ch =>
    simp only [Node.seed, Node.compression_level] at hs hl
    subst hl
    simp [collapse_state, collapseStateG, validate_node, hs, Node.seed,
      Node.compression_level]

/-- C9 witness: idempotence applied at a concrete seeded SEED node. -/
theorem collapse_idempotent_on_seeded_witness :
    (collapse_state exC9 0).seed = exC9.seed
    ∧ (collapse_state exC9 0).compression_level = some .SEED
    ∧ (collapse_state (collapse_state exC9 0) 0).seed = exC9.seed :=
  collapse_idempotent_on_seeded exC9 0 (by decide) rfl

/-- C3 counterexample theorem: the collapse of `exC3` returns the node
at SEED although the input held SIGIL_ONLY, and SEED is ordinally
below SIGIL_ONLY. -/
theorem collapse_level_decrease_cex :
    exC3.compression_level = some .SIGIL_ONLY
    ∧ (collapse_state exC3 0).compression_level = some .SEED
    ∧ CompressionLevel.SEED.toNat < CompressionLevel.SIGIL_ONLY.toNat := by
  refine ⟨rfl, ?_, by decide⟩
  simp [collapse_state, collapseStateG, validate_node, exC3, truthy,
    Node.compression_level]


/-- Outcome of the collapse step when the validation rejects: the
terminal blocked node (one-step unfolding lemma). -/
theorem collapseStateG_blocked_eq (g : Option GateFn) (r : Option String)
    (cy : Option Int) (co se : Option String) (pr : Option Int)
    (lv cf : Option CompressionLevel) (er : Option String) (ch : List Node)
    (d : Nat) (rsn : Option String)
    (hv : validate_node g (.mk r cy co se pr lv cf er ch) d = (false, rsn)) :
    collapseStateG g (.mk r cy co se pr lv cf er ch) d
      = .mk (some (r.getD "unknown")) (some (cy.getD 0)) none (some "[Blocked]")
          none (some .SIGIL_ONLY) (some (lv.getD .RAW))
          (some ("[Guardian] Collapse blocked: " ++ rsn.getD "None")) [] := by
  simp only [collapseStateG, hv]

/-- Outcome of the collapse step when the validation accepts and the
node has a truthy seed (one-step unfolding lemma). -/
theorem collapseStateG_seed_eq (g : Option GateFn) (r : Option String)
    (cy : Option Int) (co se : Option String) (pr : Option Int)
    (lv cf : Option CompressionLevel) (er : Option String) (ch : List Node)
    (d : Nat)
    (hok : (validate_node g (.mk r cy co se pr lv cf er ch) d).1 = true)
    (hse : truthy se = true) :
    collapseStateG g (.mk r cy co se pr lv cf er ch) d
      = .mk r cy none se pr
          (some (if lv.getD .RAW = .RAW then CompressionLevel.SEED else lv.getD .RAW))
          (if lv.getD .RAW = .RAW then some CompressionLevel.RAW else cf) er
          (collapseChildrenG g ch (d + 1)) := by
  rcases hv : validate_node g (.mk r cy co se pr lv cf er ch) d with ⟨ok, rsn⟩
  rw [hv] at hok
  cases ok with
  | false => simp at hok
  | true => simp [collapseStateG, hv, hse]

/-- Outcome of the collapse step when the validation accepts and the
node has no truthy seed (one-step unfolding lemma). -/
theorem collapseStateG_noseed_eq (g : Option GateFn) (r : Option String)
    (cy : Option Int) (co se : Option String) (pr : Option Int)
    (lv cf : Option CompressionLevel) (er : Option String) (ch : List Node)
    (d : Nat)
    (hok : (validate_node g (.mk r cy co se pr lv cf er ch) d).1 = true)
    (hse : truthy se = false) :
    collapseStateG g (.mk r cy co se pr lv cf er ch) d
      = .mk r cy none
          (some (autoSeedStr (cy.getD 0)
            (if 3 ≤ pr.getD 0 then pySlice (co.getD "") 80 else pySlice (co.getD "") 50)))
          pr (some .SEED) (some (lv.getD .RAW)) er
          (collapseChildrenG g ch (d + 1)) := by
  rcases hv : validate_node g (.mk r cy co se pr lv cf er ch) d with ⟨ok, rsn⟩
  rw [hv] at hok
  cases ok with
  | false => simp at hok
  | true => simp [collapseStateG, hv, hse]

/-- C3 (amended): on every tree in which each SIGIL_ONLY node carries a
truthy seed — which every collapse output does — the compression level
of every node is ordinally non-decreasing under collapse, and the
output again satisfies the same condition, so levels never decrease
across repeated collapse calls.  (The only violation, shown by the
counterexample, is a seedless SIGIL_ONLY input node, which is re-seeded
at SEED.) -/
theorem collapse_level_monotone_of_seeded_sigils (g : Option GateFn) (n : Node)
    (d : Nat) (h : seededSigilTreeB n = true) :
    levelMonotoneB n (collapseStateG g n d) = true
    ∧ seededSigilTreeB (collapseStateG g n d) = true := by
  induction n using Node.inductionOn generalizing d with
  | step r cy co se pr lv cf er ch ih =>
    simp only [seededSigilTreeB, Bool.and_eq_true, seededSigilListB_eq,
      List.all_eq_true] at h
    obtain ⟨hroot, hch⟩ := h
    rcases hv : validate_node g (Node.mk r cy co se pr lv cf er ch) d with ⟨ok, rsn⟩
    cases ok with
    | false =>
      rw [collapseStateG_blocked_eq g r cy co se pr lv cf er ch d rsn hv]
      constructor
      · simp only [levelMonotoneB, Node.compression_level, Node.children,
          Bool.and_eq_true, decide_eq_true_eq, Option.getD_some]
        exact ⟨levelToNat_le_three _, by rw [levelMonotoneListB_nil]⟩
      · simp [seededSigilTreeB, seededSigilListB, truthy]
    | true =>
      have hok : (validate_node g (Node.mk r cy co se pr lv cf er ch) d).1 = true := by
        rw [hv]
      by_cases hse : truthy se = true
      · rw [collapseStateG_seed_eq g r cy co se pr lv cf er ch d hok hse]
        constructor
        · simp only [levelMonotoneB, Node.compression_level, Node.children,
            Bool.and_eq_true, decide_eq_true_eq, Option.getD_some]
          constructor
          · by_cases hraw : lv.getD .RAW = .RAW
            · simp [hraw, CompressionLevel.toNat]
            · simp [hraw]
          · rw [collapseChildrenG_eq_map]
            exact levelMonotoneListB_map ch _
              (fun c hc => (ih c hc (d + 1) (hch c hc)).1)
        · simp only [seededSigilTreeB, Bool.and_eq_true]
          constructor
          · simp [hse]
          · rw [collapseChildrenG_eq_map, seededSigilListB_eq]
            simp only [List.all_eq_true, List.mem_map]
            rintro x ⟨c, hc, rfl⟩
            exact (ih c hc (d + 1) (hch c hc)).2
      · have hse2 : truthy se = false := by
          simpa using hse
        rw [collapseStateG_noseed_eq g r cy co se pr lv cf er ch d hok hse2]
        have hnotsigil : lv.getD .RAW ≠ .SIGIL_ONLY := by
          intro hx
          rcases Bool.or_eq_true _ _ |>.mp hroot with hy | hy
          · rw [hx] at hy
            exact absurd hy (by decide)
          · rw [hse2] at hy
            exact absurd hy (by decide)
        constructor
        · simp only [levelMonotoneB, Node.compression_level, Node.children,
            Bool.and_eq_true, decide_eq_true_eq, Option.getD_some]
          constructor
          · cases hlv : lv.getD .RAW <;> simp_all [CompressionLevel.toNat]
          · rw [collapseChildrenG_eq_map]
            exact levelMonotoneListB_map ch _
              (fun c hc => (ih c hc (d + 1) (hch c hc)).1)
        · simp only [seededSigilTreeB, Bool.and_eq_true]
          constructor
          · simp
          · rw [collapseChildrenG_eq_map, seededSigilListB_eq]
            simp only [List.all_eq_true, List.mem_map]
            rintro x ⟨c, hc, rfl⟩
            exact (ih c hc (d + 1) (hch c hc)).2

/-- C3 witness: the amended monotonicity theorem applied at a concrete
two-node tree with no seedless SIGIL_ONLY node. -/
theorem collapse_level_monotone_witness :
    levelMonotoneB exC3w (collapseStateG none exC3w 0) = true
    ∧ seededSigilTreeB (collapseStateG none exC3w 0) = true :=
  collapse_level_monotone_of_seeded_sigils none exC3w 0
    (by simp [exC3w, seededSigilTreeB, seededSigilListB, truthy])

/-- C7: after any collapse call — with or without a structural gate —
every node of the result satisfies the mutual-exclusion property: a
stored level other than RAW implies the content value is absent or
empty.  (The collapse in fact clears `content` on every path.) -/
theorem collapse_mutual_exclusion (g : Option GateFn) (n : Node) (d : Nat) :
    mutualExclusionTreeB (collapseStateG g n d) = true := by
  induction n using Node.inductionOn generalizing d with
  | step r cy co se pr lv cf er ch ih =>
    rcases hv : validate_node g (Node.mk r cy co se pr lv cf er ch) d with ⟨ok, rsn⟩
    cases ok with
    | false =>
      rw [collapseStateG_blocked_eq g r cy co se pr lv cf er ch d rsn hv]
      simp [mutualExclusionTreeB, mutualExclusionB, mutualExclusionListB]
    | true =>
      have hok : (validate_node g (Node.mk r cy co se pr lv cf er ch) d).1 = true := by
        rw [hv]
      by_cases hse : truthy se = true
      · rw [collapseStateG_seed_eq g r cy co se pr lv cf er ch d hok hse]
        simp only [mutualExclusionTreeB, collapseChildrenG_eq_map,
          mutualExclusionListB_eq, List.all_eq_true, List.mem_map, Bool.and_eq_true]
        constructor
        · simp [mutualExclusionB]
        · rintro x ⟨c, hc, rfl⟩
          exact ih c hc (d + 1)
      · have hse2 : truthy se = false := by
          simpa using hse
        rw [collapseStateG_noseed_eq g r cy co se pr lv cf er ch d hok hse2]
        simp only [mutualExclusionTreeB, collapseChildrenG_eq_map,
          mutualExclusionListB_eq, List.all_eq_true, List.mem_map, Bool.and_eq_true]
        constructor
        · simp [mutualExclusionB]
        · rintro x ⟨c, hc, rfl⟩
          exact ih c hc (d + 1)

/-- C10: with no guardian bound — the default construction, and the
wiring `ArcMemorySystem.__init__` uses — the validation step approves
every node unconditionally, and every collapse result preserves, at
every node position, the input `error` value and the input child
count: the blocked branch (which overwrites `error` and amputates the
children) is never taken. -/
theorem collapse_without_guardian_never_blocks (n : Node) (d : Nat) :
    validate_node none n d = (true, none)
    ∧ shapePreservedB n (collapse_state n d) = true := by
  refine ⟨rfl, ?_⟩
  induction n using Node.inductionOn generalizing d with
  | step r cy co se pr lv cf er ch ih =>
    have hok : (validate_node none (Node.mk r cy co se pr lv cf er ch) d).1 = true := rfl
    by_cases hse : truthy se = true
    · rw [collapse_state, collapseStateG_seed_eq none r cy co se pr lv cf er ch d hok hse]
      simp only [shapePreservedB, Node.error, Node.children, collapseChildrenG_eq_map,
        List.length_map, Bool.and_eq_true, beq_self_eq_true, true_and]
      exact shapePreservedListB_map ch _ (fun c hc => ih c hc (d + 1))
    · have hse2 : truthy se = false := by
        simpa using hse
      rw [collapse_state, collapseStateG_noseed_eq none r cy co se pr lv cf er ch d hok hse2]
      simp only [shapePreservedB, Node.error, Node.children, collapseChildrenG_eq_map,
        List.length_map, Bool.and_eq_true, beq_self_eq_true, true_and]
      exact shapePreservedListB_map ch _ (fun c hc => ih c hc (d + 1))

/-- C5 counterexample: a SEED node with one child yields exactly one
reconstruction line — the child contributes nothing, so the claimed
"own line followed by the children's lines" (which would give two
lines here) fails. -/
theorem reconstruct_seed_drops_children_cex :
    exC5.children.length = 1
    ∧ reconstruct_node exC5 0
        = [nodeLine 0 3 ("user".toUpper) (expand_seed (some "[AutoSeed AC-3]: p..."))]
    ∧ (reconstruct_node exC5 0).length = 1 := by
  refine ⟨rfl, ?_, ?_⟩ <;>
    simp only [exC5, exC5child, reconstruct_node, Option.getD_some,
      List.length_cons, List.length_nil]

/-- C5 (amended): for every node stored at level SEED, reconstruction
returns exactly one line — the seed-expansion line — and does not
recurse into the children; a SEED node with children contributes only
its own line. -/
theorem reconstruct_seed_single_line (n : Node) (d : Nat)
    (h : n.compression_level.getD .RAW = .SEED) :
    reconstruct_node n d
      = [nodeLine d (n.cycle.getD 0) ((n.role.getD "").toUpper) (expand_seed n.seed)] := by
  cases n with
  | mk r cy co se pr lv cf er ch =>
    simp only [Node.compression_level] at h
    simp [reconstruct_node, h, Node.cycle, Node.role, Node.seed]

/-- C5 witness: the single-line theorem applied at the concrete SEED
node with one child. -/
theorem reconstruct_seed_single_line_witness :
    reconstruct_node exC5 0
      = [nodeLine 0 (exC5.cycle.getD 0) ((exC5.role.getD "").toUpper)
          (expand_seed exC5.seed)] :=
  reconstruct_seed_single_line exC5 0 rfl

/-- C6: the cycle-threaded reconstruction is the pre-order walk of the
whole tree, emitting the expanded-seed line for exactly the nodes whose
cycle equals the target — the traversal is not pruned at non-matching
nodes — and on the {3, 7, 3} example tree (the second 3 nested under
the 7) the thread for cycle 3 returns exactly the two matching lines in
pre-order. -/
theorem reconstruct_thread_preorder_filter :
    (∀ (t : Node) (c : Int),
        reconstruct_thread t c
          = ((preorder t).filter (fun m => m.cycle.getD 0 == c)).map
              (fun m => expand_seed m.seed))
    ∧ reconstruct_thread exC6 3 = [expand_seed exC6.seed, expand_seed exC6leaf.seed]
    ∧ (reconstruct_thread exC6 3).length = 2 := by
  have main : ∀ (t : Node) (c : Int),
      reconstruct_thread t c
        = ((preorder t).filter (fun m => m.cycle.getD 0 == c)).map
            (fun m => expand_seed m.seed) := by
    intro t
    induction t using Node.inductionOn with
    | step r cy co se pr lv cf er ch ih =>
      intro c
      have hlist : ∀ l : List Node, (∀ x ∈ l, x ∈ ch) →
          reconstructThreadChildren l c
            = ((preorderList l).filter (fun m => m.cycle.getD 0 == c)).map
                (fun m => expand_seed m.seed) := by
        intro l hl
        induction l with
        | nil => simp [reconstructThreadChildren, preorderList]
        | cons x rest ihl =>
          simp only [reconstructThreadChildren, preorderList, List.filter_append,
            List.map_append]
          rw [ih x (hl x (by simp)) c, ihl (fun y hy => hl y (by simp [hy]))]
      simp only [reconstruct_thread, preorder]
      rw [hlist ch (fun x hx => hx)]
      rw [List.filter_cons]
      by_cases hc : cy.getD 0 = c
      · simp [Node.cycle, Node.seed, hc]
      · simp [Node.cycle, hc]
  refine ⟨main, ?_, ?_⟩ <;>
    rw [main] <;>
    simp only [exC6, exC6mid, exC6leaf, preorder, preorderList, List.append_nil,
      List.nil_append, List.filter_cons, List.filter_nil, Node.cycle, Node.seed,
      Option.getD_some, show (((3 : Int) == 3) = true) from rfl,
      show (((7 : Int) == 3) = false) from rfl, if_true, if_false,
      Bool.false_eq_true, List.map_cons, List.map_nil, List.length_cons,
      List.length_nil]
